import Mathlib

/-
Shallow embedding of src/byte_ring.c (repository melsabae/byte_ring).

Modelling choices, stated once here:
* Pointers into the backing store are modelled as byte offsets from the
  base of the store, so the first line is offset 0 and pointer arithmetic
  becomes Nat arithmetic.  The C code keeps the write and read heads as
  uint8_t pointers; every arithmetic step of the source is reproduced on
  the offsets.
* The backing store and the size map are modelled as total functions
  Nat -> Nat (a flat memory).  The C code indexes the size map with
  br_get_line_index, which returns the raw byte offset head - base, NOT
  the line number; the embedding reproduces exactly that indexing.
  Freshly malloc-ed memory holds arbitrary values, so the constructor
  model takes the initial contents of both regions as parameters.
* uint8_t truncation of the pushed byte happens at the function boundary
  (mod 256); uint32_t flag arithmetic stays below 2 to the 32 because all
  flag operations are masks and ors of values below 2 to the 32.
* br_pop writes into a caller buffer through memcpy; the embedding
  returns the list of bytes that memcpy copies, together with the ssize_t
  function value.  The readiness callback receives the bytes of the read
  line and the stored size, mirroring the (const uint8_t*, size_t)
  arguments.
-/

set_option maxHeartbeats 1000000

namespace ByteRing

/-! Flag constants, from byte_ring.h and the macros in byte_ring.c. -/

def BR_OVERWRITE_OLDEST : Nat := 1
def BR_OVERWRITE_NEWEST : Nat := 2
def BR_OVERWRITE_REFUSAL : Nat := 4
def BR_BACKING_STORE_ALLOC : Nat := 8
def BR_STRUCT_ALLOC : Nat := 16
def BR_SIZEMAP_ALLOC : Nat := 32
def BR_FLAG_OVERWRITE : Nat := 64
def BR_FLAG_DATA_READY : Nat := 128
def BR_FLAG_LINE_WRAPPED : Nat := 256
def BR_FLAG_RING_EMPTY : Nat := 512
def BR_FLAG_RING_FULL : Nat := 1024

def BR_BEHAVIOR_FLAGS_MASK : Nat :=
  BR_OVERWRITE_OLDEST ||| BR_OVERWRITE_NEWEST ||| BR_OVERWRITE_REFUSAL

def BR_ALLOC_FLAGS_MASK : Nat :=
  BR_BACKING_STORE_ALLOC ||| BR_STRUCT_ALLOC ||| BR_SIZEMAP_ALLOC

def BR_IMMUTABLE_FLAGS_MASK : Nat := BR_ALLOC_FLAGS_MASK ||| BR_BEHAVIOR_FLAGS_MASK

/-- The all-ones uint32 word, used to model the C bitwise complement. -/
def UINT32_ONES : Nat := 2 ^ 32 - 1

/-- BR_EVENT_FLAGS_MASK is the uint32 complement of BR_IMMUTABLE_FLAGS_MASK. -/
def BR_EVENT_FLAGS_MASK : Nat := UINT32_ONES ^^^ BR_IMMUTABLE_FLAGS_MASK

/-- struct byte_ring.  The push_function member of the C struct is a
function pointer chosen from the behavior flag at construction; the
embedding dispatches br_push on the behavior bits of bit_flags instead,
which is the value the constructors store into that pointer. -/
@[ext]
structure byte_ring where
  bit_flags : Nat
  number_lines : Nat
  line_length : Nat
  backing_store : Nat → Nat
  backing_store_size : Nat
  size_map : Nat → Nat
  write : Nat
  read : Nat

def br_get_flags (r : byte_ring) : Nat := r.bit_flags

def br_set_flags (r : byte_ring) (flags : Nat) : byte_ring :=
  { r with bit_flags := flags }

def br_add_flags (r : byte_ring) (flags : Nat) : byte_ring :=
  br_set_flags r (r.bit_flags ||| flags)

/-- static _br_clear_flag: flags and-not flag, complement taken on uint32. -/
def br_clear_flag_masked (r : byte_ring) (flag : Nat) : byte_ring :=
  br_set_flags r (br_get_flags r &&& (UINT32_ONES ^^^ flag))

def br_clear_event_flags (r : byte_ring) : byte_ring :=
  br_set_flags r (br_get_flags r &&& BR_IMMUTABLE_FLAGS_MASK)

def br_get_backing_store_size (r : byte_ring) : Nat := r.backing_store_size

/-- The base pointer of the backing store, offset 0 in the embedding. -/
def br_get_first_line (r : byte_ring) : Nat := 0

def br_get_final_line (r : byte_ring) : Nat :=
  br_get_first_line r + br_get_backing_store_size r - r.line_length

def br_get_specific_line (r : byte_ring) (index : Nat) : Nat :=
  br_get_first_line r + index * r.line_length

/-- br_get_line_index returns head - base: the raw byte offset of the
head, exactly as in the source (the source does not divide by the line
length). -/
def br_get_line_index (r : byte_ring) (head : Nat) : Nat :=
  head - br_get_first_line r

def br_get_next_line (r : byte_ring) (head : Nat) : Nat :=
  if br_get_final_line r = head then br_get_first_line r
  else head + r.line_length

def br_get_size (r : byte_ring) (head : Nat) : Nat :=
  r.size_map (br_get_line_index r head)

def br_set_size (r : byte_ring) (index size : Nat) : byte_ring :=
  { r with size_map := fun i => if i = index then size else r.size_map i }

/-- br_write_line_is_full also records BR_FLAG_LINE_WRAPPED when full,
so it returns the updated ring together with the Bool. -/
def br_write_line_is_full (r : byte_ring) : Bool × byte_ring :=
  if r.line_length ≤ br_get_size r r.write then
    (true, br_add_flags r BR_FLAG_LINE_WRAPPED)
  else (false, r)

def br_head1_will_point_to_head2 (r : byte_ring) (head1 head2 : Nat) : Bool :=
  br_get_next_line r head1 = head2

def br_write_will_point_to_read (r : byte_ring) : Bool × byte_ring :=
  if br_head1_will_point_to_head2 r r.write r.read then
    (true, br_add_flags r BR_FLAG_RING_FULL)
  else (false, r)

def br_read_will_point_to_write (r : byte_ring) : Bool × byte_ring :=
  if br_head1_will_point_to_head2 r r.read r.write then
    (true, br_add_flags r BR_FLAG_RING_EMPTY)
  else (false, r)

def br_reset_write_head (r : byte_ring) : byte_ring :=
  br_set_size r (br_get_line_index r r.write) 0

/-- BR_SHRED_OLD_DATA is not defined in the build, so only the size map
entry is reset. -/
def br_reset_read_head (r : byte_ring) : byte_ring :=
  br_set_size r (br_get_line_index r r.read) 0

def br_peek_read_size (r : byte_ring) : Nat := br_get_size r r.read

def br_peek_write_size (r : byte_ring) : Nat := br_get_size r r.write

/-- The pushed byte is a uint8_t parameter, hence the mod 256. -/
def br_write_byte (r : byte_ring) (byte : Nat) : byte_ring :=
  let size := br_get_size r r.write
  let index := br_get_line_index r r.write
  let r1 : byte_ring :=
    { r with backing_store :=
        fun i => if i = r.write + size then byte % 256 else r.backing_store i }
  br_set_size r1 index (size + 1)

def br_move_read_line_forward (r : byte_ring) : byte_ring :=
  let r1 := br_reset_read_head r
  { r1 with read := br_get_next_line r1 r1.read }

def br_move_write_line_forward (r : byte_ring) : byte_ring :=
  let index := br_get_line_index r r.write
  let r1 := br_set_size r index (br_peek_write_size r)
  let r2 : byte_ring := { r1 with write := br_get_next_line r1 r1.write }
  br_reset_write_head r2

/-- br_increment_write is present in the source but is not called by any
public operation. -/
def br_increment_write (r : byte_ring) (force : Bool) : byte_ring :=
  let p := br_read_will_point_to_write r
  if p.1 && !force then p.2
  else if p.1 then br_move_write_line_forward (br_move_read_line_forward p.2)
  else br_move_write_line_forward p.2

/-- br_increment_read is present in the source but is not called by any
public operation (br_seek moves the read head directly). -/
def br_increment_read (r : byte_ring) (force : Bool) : byte_ring :=
  let p := br_read_will_point_to_write r
  if p.1 && !force then p.2
  else if p.1 then br_move_read_line_forward (br_move_write_line_forward p.2)
  else br_move_read_line_forward p.2

def br_push_overwrite_oldest (r : byte_ring) (byte : Nat) : byte_ring × Bool :=
  let p1 := br_write_will_point_to_read r
  let p2 := br_write_line_is_full p1.2
  let overwrite := p1.1 && p2.1
  let r3 := if overwrite then
      br_add_flags (br_move_read_line_forward p2.2) BR_FLAG_OVERWRITE
    else p2.2
  let r4 := if p2.1 then br_move_write_line_forward r3 else r3
  (br_write_byte r4 byte, true)

def br_push_overwrite_newest (r : byte_ring) (byte : Nat) : byte_ring × Bool :=
  let p1 := br_write_will_point_to_read r
  let p2 := br_write_line_is_full p1.2
  let overwrite := p1.1 && p2.1
  let r3 := if overwrite then
      br_add_flags (br_reset_write_head p2.2) BR_FLAG_OVERWRITE
    else p2.2
  let r4 := if !overwrite && p2.1 then br_move_write_line_forward r3 else r3
  (br_write_byte r4 byte, true)

def br_push_refuse_overwrite (r : byte_ring) (byte : Nat) : byte_ring × Bool :=
  let p1 := br_write_will_point_to_read r
  let p2 := br_write_line_is_full p1.2
  let overwrite := p1.1 && p2.1
  if overwrite then (p2.2, false)
  else
    let r3 := if p2.1 then br_move_write_line_forward p2.2 else p2.2
    (br_write_byte r3 byte, true)

/-- br_push calls the push_function member; the constructors assign that
member from the behavior bits, and assign nothing for any other bits, so
the dispatch below matches the switch in the constructors.  The final
branch is unreachable for constructed rings (the function pointer is
uninitialized there in the C). -/
def br_push (r : byte_ring) (byte : Nat) : byte_ring × Bool :=
  if br_get_flags r &&& BR_BEHAVIOR_FLAGS_MASK = BR_OVERWRITE_OLDEST then
    br_push_overwrite_oldest r byte
  else if br_get_flags r &&& BR_BEHAVIOR_FLAGS_MASK = BR_OVERWRITE_NEWEST then
    br_push_overwrite_newest r byte
  else if br_get_flags r &&& BR_BEHAVIOR_FLAGS_MASK = BR_OVERWRITE_REFUSAL then
    br_push_refuse_overwrite r byte
  else (r, true)

def br_advance_write_head (r : byte_ring) : byte_ring × Bool :=
  let p1 := br_write_will_point_to_read r
  let p2 := br_write_line_is_full p1.2
  let overwrite := p1.1 && p2.1
  let res : byte_ring × Bool :=
    if !overwrite then (br_move_write_line_forward p2.2, true)
    else if br_get_flags p2.2 &&& BR_BEHAVIOR_FLAGS_MASK = BR_OVERWRITE_OLDEST then
      (br_add_flags (br_move_write_line_forward (br_move_read_line_forward p2.2))
         BR_FLAG_OVERWRITE, true)
    else if br_get_flags p2.2 &&& BR_BEHAVIOR_FLAGS_MASK = BR_OVERWRITE_NEWEST then
      (br_add_flags (br_reset_write_head p2.2) BR_FLAG_OVERWRITE, true)
    else if br_get_flags p2.2 &&& BR_BEHAVIOR_FLAGS_MASK = BR_OVERWRITE_REFUSAL then
      (p2.2, false)
    else (p2.2, false)
  (br_add_flags res.1 BR_FLAG_DATA_READY, res.2)

def br_seek (r : byte_ring) : byte_ring × Bool :=
  let r1 := br_reset_read_head r
  let p := br_read_will_point_to_write r1
  if !p.1 then (br_move_read_line_forward p.2, true)
  else (p.2, false)

def br_clear (r : byte_ring) : byte_ring :=
  let size := br_get_backing_store_size r
  let r1 : byte_ring :=
    { r with backing_store := fun i => if i < size then 0 else r.backing_store i }
  let r2 : byte_ring :=
    { r1 with size_map := fun i => if i < r1.number_lines then 0 else r1.size_map i }
  let r3 : byte_ring := { r2 with read := br_get_final_line r2, write := br_get_first_line r2 }
  let r4 := br_reset_read_head r3
  let r5 := br_reset_write_head r4
  br_clear_event_flags r5

def br_set_flag (r : byte_ring) (event_flag : Nat) : byte_ring :=
  let new_flags := br_get_flags r ||| (event_flag &&& BR_EVENT_FLAGS_MASK)
  br_add_flags r new_flags

def br_clear_flag (r : byte_ring) (event_flag : Nat) : byte_ring :=
  br_clear_flag_masked r (event_flag &&& BR_EVENT_FLAGS_MASK)

def br_flag_is_set (r : byte_ring) (event_flag : Nat) : Bool :=
  0 ≠ event_flag &&& br_get_flags r

/-- The bytes of the line starting at a head, as handed to a readiness
callback through the line pointer. -/
def br_line_bytes (r : byte_ring) (head : Nat) : List Nat :=
  (List.range r.line_length).map (fun i => r.backing_store (head + i))

def br_is_ready (r : byte_ring) (f : List Nat → Nat → Int) : Int :=
  f (br_line_bytes r r.read) (br_get_size r r.read)

/-- br_pop.  The second component is the ssize_t function value, the
third the bytes memcpy copies into dst (empty when no copy happens). -/
def br_pop (r : byte_ring) (f : List Nat → Nat → Int) :
    byte_ring × Int × List Nat :=
  let size := br_get_size r r.read
  let action := f (br_line_bytes r r.read) size
  if action = 0 then (r, 0, [])
  else if action = -1 then ((br_seek r).1, -1, [])
  else if action = 1 then
    ((br_seek r).1, (size : Int),
      (List.range size).map (fun i => r.backing_store (r.read + i)))
  else (r, 0, [])

/-- Common body of the three constructors: record the geometry, store the
allocation and behavior bits, and finish with br_clear.  malloc returns
memory with arbitrary contents, so the initial backing store and size map
are parameters; the write and read members are unset garbage before
br_clear assigns them, so their initial values are irrelevant and taken
as 0. -/
def br_construct (n_lines len_lines behavior_flag alloc_bits : Nat)
    (store0 map0 : Nat → Nat) : byte_ring :=
  br_clear
    { bit_flags := 0 ||| (alloc_bits ||| behavior_flag)
      number_lines := n_lines
      line_length := len_lines
      backing_store := store0
      backing_store_size := n_lines * len_lines
      size_map := map0
      write := 0
      read := 0 }

/-- br_create_full_alloc sets all three allocation bits. -/
def br_create_full_alloc (n_lines len_lines behavior_flag : Nat)
    (store0 map0 : Nat → Nat) : byte_ring :=
  br_construct n_lines len_lines behavior_flag
    (BR_BACKING_STORE_ALLOC ||| BR_STRUCT_ALLOC ||| BR_SIZEMAP_ALLOC) store0 map0

def br_push_list (r : byte_ring) (s : List Nat) : byte_ring :=
  s.foldl (fun st b => (br_push st b).1) r

/-! Concrete rings and callbacks used by witnesses and counterexamples. -/

/-- Zero-initialized memory, standing in for a particular malloc result. -/
def zeroMem : Nat → Nat := fun _ => 0

/-- A readiness callback that always answers BR_READY. -/
def alwaysReady : List Nat → Nat → Int := fun _ _ => 1

/-- A readiness callback that answers 2, outside the BR_READY_FOR_POP range. -/
def alwaysTwo : List Nat → Nat → Int := fun _ _ => 2

/-- Fresh fully allocated refuse ring with two lines of one byte. -/
def ringR21 : byte_ring := br_create_full_alloc 2 1 BR_OVERWRITE_REFUSAL zeroMem zeroMem

/-- Fresh fully allocated overwrite-newest ring with two lines of one byte. -/
def ringN21 : byte_ring := br_create_full_alloc 2 1 BR_OVERWRITE_NEWEST zeroMem zeroMem

/-- Fresh fully allocated refuse ring with three lines of one byte. -/
def ringR31 : byte_ring := br_create_full_alloc 3 1 BR_OVERWRITE_REFUSAL zeroMem zeroMem

/-- A reachable boundary state of ringR31: push one byte, finalize the
line, seek once.  Afterwards the write head is on line 1, the read head
on line 0 with one valid byte, and the line after the read head is the
write head's line. -/
def ringBoundary : byte_ring :=
  (br_seek (br_advance_write_head (br_push ringR31 7).1).1).1

/-- The bits of the flag register that must never change after
construction: the allocation descriptor and the admission-policy tag. -/
def br_immutable_bits (r : byte_ring) : Nat := r.bit_flags &&& BR_IMMUTABLE_FLAGS_MASK

/-- A freshly constructed ring with three lines of four bytes whose
size-map allocation happened to hold the value 5 at word index 4: the
word the code uses as the ledger entry of line 1 and that br_clear never
initializes. -/
def ringStaleLedger : byte_ring :=
  br_create_full_alloc 3 4 BR_OVERWRITE_REFUSAL zeroMem (fun i => if i = 4 then 5 else 0)

/-- A refuse ring of two one-byte lines holding one pushed byte: its
write line is at capacity and the next line is the read head's line. -/
def ringFullRefuse : byte_ring := (br_push ringR21 7).1

/-- The same at-capacity state under the drop-oldest policy. -/
def ringFullOldest : byte_ring :=
  (br_push (br_create_full_alloc 2 1 BR_OVERWRITE_OLDEST zeroMem zeroMem) 7).1

/-- The record state of a 3-line, 1-byte refuse ring just before the
constructor's final br_clear call (fields written, clear not yet run). -/
def ringBase31 : byte_ring :=
  { bit_flags := 60, number_lines := 3, line_length := 1, backing_store := zeroMem,
    backing_store_size := 3, size_map := zeroMem, write := 0, read := 0 }

/-! Shape lemmas: each state-modifying helper as a record update. -/

lemma br_add_flags_eq (r : byte_ring) (f : Nat) :
    br_add_flags r f = { r with bit_flags := r.bit_flags ||| f } := rfl

lemma br_set_size_eq (r : byte_ring) (index size : Nat) :
    br_set_size r index size =
      { r with size_map := fun i => if i = index then size else r.size_map i } := rfl

lemma br_reset_read_head_eq (r : byte_ring) :
    br_reset_read_head r =
      { r with size_map := fun i => if i = r.read then 0 else r.size_map i } := rfl

lemma br_reset_write_head_eq (r : byte_ring) :
    br_reset_write_head r =
      { r with size_map := fun i => if i = r.write then 0 else r.size_map i } := rfl

lemma br_write_byte_eq (r : byte_ring) (b : Nat) :
    br_write_byte r b =
      { r with
        backing_store := fun i =>
          if i = r.write + r.size_map r.write then b % 256 else r.backing_store i,
        size_map := fun i =>
          if i = r.write then r.size_map r.write + 1 else r.size_map i } := rfl

lemma br_move_read_line_forward_eq (r : byte_ring) :
    br_move_read_line_forward r =
      { r with
        read := br_get_next_line r r.read,
        size_map := fun i => if i = r.read then 0 else r.size_map i } := rfl

lemma br_move_write_line_forward_eq (r : byte_ring) :
    br_move_write_line_forward r =
      { r with
        write := br_get_next_line r r.write,
        size_map := fun i =>
          if i = br_get_next_line r r.write then 0
          else if i = r.write then r.size_map r.write else r.size_map i } := rfl

lemma br_get_next_line_eq (r : byte_ring) (head : Nat) :
    br_get_next_line r head =
      if r.backing_store_size - r.line_length = head then 0
      else head + r.line_length := by
  simp [br_get_next_line, br_get_final_line, br_get_first_line, br_get_backing_store_size]

lemma br_get_size_eq (r : byte_ring) (head : Nat) :
    br_get_size r head = r.size_map head := by
  simp [br_get_size, br_get_line_index, br_get_first_line]

/-! Bit-level helper lemmas for the uint32 flag register. -/

lemma and_mask_or (m x y : Nat) (hy : y &&& m = 0) : (x ||| y) &&& m = x &&& m := by
  apply Nat.eq_of_testBit_eq
  intro i
  have h := congrArg (fun n => n.testBit i) hy
  simp only [Nat.testBit_and, Nat.zero_testBit] at h
  simp only [Nat.testBit_and, Nat.testBit_or]
  cases hx : x.testBit i <;> cases hyy : y.testBit i <;> cases hm : m.testBit i <;> simp_all

lemma testBit_63 (i : Nat) : Nat.testBit 63 i = decide (i < 6) := by
  have h : (63 : Nat) = 2 ^ 6 - 1 := by norm_num
  rw [h, Nat.testBit_two_pow_sub_one]

lemma and_clear_mask (x v : Nat) (hv : v &&& 63 = 0) :
    (x &&& (UINT32_ONES ^^^ v)) &&& 63 = x &&& 63 := by
  apply Nat.eq_of_testBit_eq
  intro i
  have h := congrArg (fun n => n.testBit i) hv
  simp only [Nat.testBit_and, Nat.zero_testBit] at h
  simp only [Nat.testBit_and, Nat.testBit_xor, UINT32_ONES]
  by_cases hi : i < 6
  · have h32 : Nat.testBit (2 ^ 32 - 1) i = true := by
      rw [Nat.testBit_two_pow_sub_one]
      exact decide_eq_true (by omega)
    have h63 : Nat.testBit 63 i = true := by
      rw [testBit_63]
      exact decide_eq_true hi
    have hv0 : v.testBit i = false := by
      rw [h63] at h
      simpa using h
    rw [h32, h63, hv0]
    cases x.testBit i <;> rfl
  · have h63 : Nat.testBit 63 i = false := by
      rw [testBit_63]
      exact decide_eq_false hi
    rw [h63]
    cases x.testBit i <;> simp

lemma and63_and63 (x : Nat) : (x &&& 63) &&& 63 = x &&& 63 := by
  rw [Nat.and_assoc]
  norm_num

lemma and63_and7 (x : Nat) : (x &&& 63) &&& 7 = x &&& 7 := by
  rw [Nat.and_assoc]
  rfl

/-! Characterizations of the public operations on the relevant paths. -/

lemma br_clear_eq (r : byte_ring) :
    br_clear r =
      { r with
        bit_flags := r.bit_flags &&& BR_IMMUTABLE_FLAGS_MASK,
        backing_store := fun i => if i < r.backing_store_size then 0 else r.backing_store i,
        size_map := fun i =>
          if i = 0 then 0
          else if i = br_get_final_line r then 0
          else if i < r.number_lines then 0 else r.size_map i,
        write := 0,
        read := br_get_final_line r } := rfl

/-- br_seek when the line after the read head is the write head's line:
the ledger entry of the read line is still reset, the ring-empty flag is
recorded, and the call fails without moving either head. -/
lemma br_seek_fail (r : byte_ring) (h : br_get_next_line r r.read = r.write) :
    br_seek r = (br_add_flags (br_reset_read_head r) BR_FLAG_RING_EMPTY, false) := by
  unfold br_seek br_read_will_point_to_write br_head1_will_point_to_head2
  rw [br_reset_read_head_eq]
  rw [br_get_next_line_eq] at h
  simp [br_get_next_line_eq, br_reset_read_head_eq, h]

/-- br_seek when the line after the read head is not the write head's
line: the read ledger entry is reset and the read head advances. -/
lemma br_seek_ok (r : byte_ring) (h : ¬br_get_next_line r r.read = r.write) :
    br_seek r =
      ({ r with
         read := br_get_next_line r r.read,
         size_map := fun i => if i = r.read then 0 else r.size_map i }, true) := by
  have hb : br_head1_will_point_to_head2 (br_reset_read_head r)
      (br_reset_read_head r).read (br_reset_read_head r).write = false := by
    simp only [br_head1_will_point_to_head2, br_reset_read_head_eq]
    simp only [br_get_next_line_eq] at h ⊢
    simpa using h
  unfold br_seek br_read_will_point_to_write
  simp only [hb, Bool.false_eq_true, if_false, Bool.not_false, if_true]
  rw [br_move_read_line_forward_eq, br_reset_read_head_eq]
  simp only [br_get_next_line_eq, Prod.mk.injEq, byte_ring.mk.injEq, true_and, and_true]
  funext i
  by_cases hi : i = r.read <;> simp [hi]

lemma br_push_refuse_not_full (r : byte_ring) (b : Nat)
    (hfull : ¬r.line_length ≤ r.size_map r.write) :
    br_push_refuse_overwrite r b =
      (br_write_byte
        (if br_get_next_line r r.write = r.read then br_add_flags r BR_FLAG_RING_FULL else r)
        b, true) := by
  unfold br_push_refuse_overwrite br_write_will_point_to_read br_write_line_is_full
    br_head1_will_point_to_head2
  by_cases hcl : br_get_next_line r r.write = r.read <;>
    simp [hcl, br_add_flags_eq, br_get_size_eq, hfull]

lemma br_push_oldest_not_full (r : byte_ring) (b : Nat)
    (hfull : ¬r.line_length ≤ r.size_map r.write) :
    br_push_overwrite_oldest r b =
      (br_write_byte
        (if br_get_next_line r r.write = r.read then br_add_flags r BR_FLAG_RING_FULL else r)
        b, true) := by
  unfold br_push_overwrite_oldest br_write_will_point_to_read br_write_line_is_full
    br_head1_will_point_to_head2
  by_cases hcl : br_get_next_line r r.write = r.read <;>
    simp [hcl, br_add_flags_eq, br_get_size_eq, hfull]

lemma br_push_newest_not_full (r : byte_ring) (b : Nat)
    (hfull : ¬r.line_length ≤ r.size_map r.write) :
    br_push_overwrite_newest r b =
      (br_write_byte
        (if br_get_next_line r r.write = r.read then br_add_flags r BR_FLAG_RING_FULL else r)
        b, true) := by
  unfold br_push_overwrite_newest br_write_will_point_to_read br_write_line_is_full
    br_head1_will_point_to_head2
  by_cases hcl : br_get_next_line r r.write = r.read <;>
    simp [hcl, br_add_flags_eq, br_get_size_eq, hfull]

lemma br_push_refuse_fail_eq (r : byte_ring) (b : Nat)
    (hc : br_get_next_line r r.write = r.read)
    (hf : r.line_length ≤ r.size_map r.write) :
    br_push_refuse_overwrite r b =
      (br_add_flags (br_add_flags r BR_FLAG_RING_FULL) BR_FLAG_LINE_WRAPPED, false) := by
  unfold br_push_refuse_overwrite br_write_will_point_to_read br_write_line_is_full
  unfold br_head1_will_point_to_head2
  rw [br_get_next_line_eq] at hc
  simp [br_get_next_line_eq, br_get_size_eq, br_add_flags_eq, hc, hf]

lemma br_push_refuse_snd_true (r : byte_ring) (b : Nat)
    (h : ¬(r.line_length ≤ r.size_map r.write ∧ br_get_next_line r r.write = r.read)) :
    (br_push_refuse_overwrite r b).2 = true := by
  by_cases hc : br_get_next_line r r.write = r.read
  · by_cases hf : r.line_length ≤ r.size_map r.write
    · exact absurd ⟨hf, hc⟩ h
    · rw [br_push_refuse_not_full r b hf]
  · by_cases hf : r.line_length ≤ r.size_map r.write
    · unfold br_push_refuse_overwrite br_write_will_point_to_read br_write_line_is_full
        br_head1_will_point_to_head2
      simp [hc, hf, br_add_flags_eq, br_get_size_eq]
    · rw [br_push_refuse_not_full r b hf]

lemma br_push_refuse_snd_false_iff (r : byte_ring) (b : Nat) :
    (br_push_refuse_overwrite r b).2 = false ↔
      (r.line_length ≤ r.size_map r.write ∧ br_get_next_line r r.write = r.read) := by
  constructor
  · intro hfalse
    by_contra hcond
    rw [br_push_refuse_snd_true r b hcond] at hfalse
    cases hfalse
  · intro hcond
    rw [br_push_refuse_fail_eq r b hcond.2 hcond.1]

lemma br_push_oldest_snd (r : byte_ring) (b : Nat) :
    (br_push_overwrite_oldest r b).2 = true := rfl

lemma br_push_newest_snd (r : byte_ring) (b : Nat) :
    (br_push_overwrite_newest r b).2 = true := rfl

lemma br_write_byte_add_flags (r : byte_ring) (f b : Nat) :
    br_write_byte (br_add_flags r f) b =
      { br_write_byte r b with bit_flags := r.bit_flags ||| f } := rfl

/-- br_push on a ring whose current write line is below capacity: every
policy lands on the plain append path.  The flag register may gain the
ring-full bit, which does not touch the behavior bits. -/
lemma br_push_not_full (r : byte_ring) (b : Nat)
    (hp : r.bit_flags &&& BR_BEHAVIOR_FLAGS_MASK = BR_OVERWRITE_OLDEST ∨
          r.bit_flags &&& BR_BEHAVIOR_FLAGS_MASK = BR_OVERWRITE_NEWEST ∨
          r.bit_flags &&& BR_BEHAVIOR_FLAGS_MASK = BR_OVERWRITE_REFUSAL)
    (hfull : r.size_map r.write < r.line_length) :
    ∃ fl, br_push r b = ({ br_write_byte r b with bit_flags := fl }, true) ∧
      fl &&& BR_BEHAVIOR_FLAGS_MASK = r.bit_flags &&& BR_BEHAVIOR_FLAGS_MASK := by
  have hnf : ¬r.line_length ≤ r.size_map r.write := Nat.not_le.mpr hfull
  refine ⟨if br_get_next_line r r.write = r.read then r.bit_flags ||| BR_FLAG_RING_FULL
      else r.bit_flags, ?_, ?_⟩
  · have hbody :
        br_write_byte
          (if br_get_next_line r r.write = r.read then br_add_flags r BR_FLAG_RING_FULL else r) b =
        { br_write_byte r b with
          bit_flags := if br_get_next_line r r.write = r.read then
            r.bit_flags ||| BR_FLAG_RING_FULL else r.bit_flags } := by
      by_cases hcl : br_get_next_line r r.write = r.read
      · rw [if_pos hcl, if_pos hcl]
        rfl
      · rw [if_neg hcl, if_neg hcl]
        rfl
    unfold br_push br_get_flags
    rcases hp with hp | hp | hp <;> rw [hp]
    · rw [if_pos rfl, br_push_oldest_not_full r b hnf, hbody]
    · rw [if_neg (by decide), if_pos rfl, br_push_newest_not_full r b hnf, hbody]
    · rw [if_neg (by decide), if_neg (by decide), if_pos rfl,
        br_push_refuse_not_full r b hnf, hbody]
  · by_cases hcl : br_get_next_line r r.write = r.read
    · rw [if_pos hcl]
      exact and_mask_or _ _ _ (by decide)
    · rw [if_neg hcl]

lemma imm_mask_val : BR_IMMUTABLE_FLAGS_MASK = 63 := rfl

lemma behavior_mask_val : BR_BEHAVIOR_FLAGS_MASK = 7 := rfl

lemma bit_flags_add_flags (r : byte_ring) (f : Nat) :
    (br_add_flags r f).bit_flags = r.bit_flags ||| f := rfl

lemma write_add_flags (r : byte_ring) (f : Nat) :
    (br_add_flags r f).write = r.write := rfl

lemma read_add_flags (r : byte_ring) (f : Nat) :
    (br_add_flags r f).read = r.read := rfl

lemma line_length_add_flags (r : byte_ring) (f : Nat) :
    (br_add_flags r f).line_length = r.line_length := rfl

lemma size_map_add_flags (r : byte_ring) (f : Nat) :
    (br_add_flags r f).size_map = r.size_map := rfl

lemma br_get_size_add_flags (r : byte_ring) (f h : Nat) :
    br_get_size (br_add_flags r f) h = r.size_map h := by
  simp [br_add_flags_eq, br_get_size_eq]

lemma br_get_next_line_add_flags (r : byte_ring) (f h : Nat) :
    br_get_next_line (br_add_flags r f) h = br_get_next_line r h := rfl

lemma bit_flags_move_write (r : byte_ring) :
    (br_move_write_line_forward r).bit_flags = r.bit_flags := rfl

lemma br_move_write_add_flags (r : byte_ring) (f : Nat) :
    br_move_write_line_forward (br_add_flags r f) =
      { br_move_write_line_forward r with bit_flags := r.bit_flags ||| f } := rfl

/-- br_advance_write_head when the write line is not full or no collision
is pending: the write head moves forward unconditionally, even onto the
read head's line when the collision test fired but the line was not
full. -/
lemma br_advance_no_collision (r : byte_ring)
    (h : ¬(br_get_next_line r r.write = r.read ∧ r.line_length ≤ r.size_map r.write)) :
    ∃ fl, br_advance_write_head r =
      ({ br_move_write_line_forward r with bit_flags := fl }, true) ∧
      fl &&& BR_IMMUTABLE_FLAGS_MASK = r.bit_flags &&& BR_IMMUTABLE_FLAGS_MASK := by
  by_cases hc : br_get_next_line r r.write = r.read <;>
    rw [br_get_next_line_eq] at hc
  · have hf : ¬r.line_length ≤ r.size_map r.write := fun hf => h ⟨by rwa [br_get_next_line_eq], hf⟩
    refine ⟨r.bit_flags ||| BR_FLAG_RING_FULL ||| BR_FLAG_DATA_READY, ?_, ?_⟩
    · unfold br_advance_write_head br_write_will_point_to_read br_write_line_is_full
        br_head1_will_point_to_head2
      simp [hc, hf, br_move_write_line_forward_eq, br_get_next_line_eq, br_get_size_eq,
        br_add_flags_eq]
    · rw [and_mask_or _ _ _ (by decide), and_mask_or _ _ _ (by decide)]
  · by_cases hf : r.line_length ≤ r.size_map r.write
    · refine ⟨r.bit_flags ||| BR_FLAG_LINE_WRAPPED ||| BR_FLAG_DATA_READY, ?_, ?_⟩
      · unfold br_advance_write_head br_write_will_point_to_read br_write_line_is_full
          br_head1_will_point_to_head2
        simp [hc, hf, br_move_write_line_forward_eq, br_get_next_line_eq, br_get_size_eq,
          br_add_flags_eq]
      · rw [and_mask_or _ _ _ (by decide), and_mask_or _ _ _ (by decide)]
    · refine ⟨r.bit_flags ||| BR_FLAG_DATA_READY, ?_, ?_⟩
      · unfold br_advance_write_head br_write_will_point_to_read br_write_line_is_full
          br_head1_will_point_to_head2
        simp [hc, hf, br_move_write_line_forward_eq, br_get_next_line_eq, br_get_size_eq,
          br_add_flags_eq]
      · rw [and_mask_or _ _ _ (by decide)]

lemma overwrite_mask_step (x : Nat) :
    ((x ||| BR_FLAG_RING_FULL) ||| BR_FLAG_LINE_WRAPPED) &&& BR_BEHAVIOR_FLAGS_MASK =
      x &&& BR_BEHAVIOR_FLAGS_MASK := by
  rw [and_mask_or _ _ _ (by decide), and_mask_or _ _ _ (by decide)]

/-- br_advance_write_head under a pending overwrite with behavior bits
that select neither drop-oldest nor overwrite-newest: the call fails,
and only event flags were recorded (including BR_FLAG_DATA_READY, which
the source adds even on the failure path). -/
lemma br_advance_fail (r : byte_ring)
    (hc : br_get_next_line r r.write = r.read)
    (hf : r.line_length ≤ r.size_map r.write)
    (hb1 : ¬r.bit_flags &&& BR_BEHAVIOR_FLAGS_MASK = BR_OVERWRITE_OLDEST)
    (hb2 : ¬r.bit_flags &&& BR_BEHAVIOR_FLAGS_MASK = BR_OVERWRITE_NEWEST) :
    br_advance_write_head r =
      (br_add_flags (br_add_flags (br_add_flags r BR_FLAG_RING_FULL) BR_FLAG_LINE_WRAPPED)
        BR_FLAG_DATA_READY, false) := by
  rw [br_get_next_line_eq] at hc
  unfold br_advance_write_head br_write_will_point_to_read br_write_line_is_full
    br_head1_will_point_to_head2 br_get_flags
  by_cases hb3 : r.bit_flags &&& BR_BEHAVIOR_FLAGS_MASK = BR_OVERWRITE_REFUSAL <;>
    simp only [BR_OVERWRITE_OLDEST, BR_OVERWRITE_NEWEST, BR_OVERWRITE_REFUSAL]
      at hb1 hb2 hb3 <;>
    simp [hc, hf, br_get_next_line_eq, br_get_size_eq, br_add_flags_eq,
      overwrite_mask_step, hb1, hb2, hb3, BR_OVERWRITE_OLDEST, BR_OVERWRITE_NEWEST,
      BR_OVERWRITE_REFUSAL]

lemma br_advance_snd_overwrite_oldest (r : byte_ring)
    (hc : br_get_next_line r r.write = r.read)
    (hf : r.line_length ≤ r.size_map r.write)
    (hb : r.bit_flags &&& BR_BEHAVIOR_FLAGS_MASK = BR_OVERWRITE_OLDEST) :
    (br_advance_write_head r).2 = true := by
  rw [br_get_next_line_eq] at hc
  unfold br_advance_write_head br_write_will_point_to_read br_write_line_is_full
    br_head1_will_point_to_head2 br_get_flags
  simp [hc, hf, br_get_next_line_eq, br_get_size_eq, br_add_flags_eq,
    overwrite_mask_step, hb]

lemma br_advance_snd_overwrite_newest (r : byte_ring)
    (hc : br_get_next_line r r.write = r.read)
    (hf : r.line_length ≤ r.size_map r.write)
    (hb : r.bit_flags &&& BR_BEHAVIOR_FLAGS_MASK = BR_OVERWRITE_NEWEST) :
    (br_advance_write_head r).2 = true := by
  rw [br_get_next_line_eq] at hc
  unfold br_advance_write_head br_write_will_point_to_read br_write_line_is_full
    br_head1_will_point_to_head2 br_get_flags
  simp [hc, hf, br_get_next_line_eq, br_get_size_eq, br_add_flags_eq,
    overwrite_mask_step, hb, BR_OVERWRITE_OLDEST, BR_OVERWRITE_NEWEST]

/-! br_pop characterizations. -/

lemma br_pop_ready (r : byte_ring) (f : List Nat → Nat → Int)
    (hf : f (br_line_bytes r r.read) (r.size_map r.read) = 1) :
    br_pop r f = ((br_seek r).1, (r.size_map r.read : Int),
      (List.range (r.size_map r.read)).map (fun i => r.backing_store (r.read + i))) := by
  unfold br_pop
  simp only [br_get_size_eq, hf]
  norm_num

lemma br_pop_out_of_range (r : byte_ring) (f : List Nat → Nat → Int)
    (h0 : ¬f (br_line_bytes r r.read) (r.size_map r.read) = 0)
    (h1 : ¬f (br_line_bytes r r.read) (r.size_map r.read) = -1)
    (h2 : ¬f (br_line_bytes r r.read) (r.size_map r.read) = 1) :
    br_pop r f = (r, 0, []) := by
  unfold br_pop
  simp only [br_get_size_eq, h0, h1, h2, if_false]

/-! Dispatch of br_push on the behavior bits. -/

lemma br_push_dispatch_oldest (r : byte_ring) (b : Nat)
    (hb : r.bit_flags &&& BR_BEHAVIOR_FLAGS_MASK = BR_OVERWRITE_OLDEST) :
    br_push r b = br_push_overwrite_oldest r b := by
  unfold br_push br_get_flags
  rw [hb, if_pos rfl]

lemma br_push_dispatch_newest (r : byte_ring) (b : Nat)
    (hb : r.bit_flags &&& BR_BEHAVIOR_FLAGS_MASK = BR_OVERWRITE_NEWEST) :
    br_push r b = br_push_overwrite_newest r b := by
  unfold br_push br_get_flags
  rw [hb, if_neg (by decide), if_pos rfl]

lemma br_push_dispatch_refuse (r : byte_ring) (b : Nat)
    (hb : r.bit_flags &&& BR_BEHAVIOR_FLAGS_MASK = BR_OVERWRITE_REFUSAL) :
    br_push r b = br_push_refuse_overwrite r b := by
  unfold br_push br_get_flags
  rw [hb, if_neg (by decide), if_neg (by decide), if_pos rfl]

/-- A br_push call can only report failure when the behavior bits select
the refuse policy, in which case it agrees with br_push_refuse_overwrite. -/
lemma br_push_snd_false (r : byte_ring) (b : Nat)
    (h : (br_push r b).2 = false) :
    r.bit_flags &&& BR_BEHAVIOR_FLAGS_MASK = BR_OVERWRITE_REFUSAL ∧
    br_push r b = br_push_refuse_overwrite r b := by
  by_cases h1 : r.bit_flags &&& BR_BEHAVIOR_FLAGS_MASK = BR_OVERWRITE_OLDEST
  · rw [br_push_dispatch_oldest r b h1, br_push_oldest_snd] at h
    cases h
  by_cases h2 : r.bit_flags &&& BR_BEHAVIOR_FLAGS_MASK = BR_OVERWRITE_NEWEST
  · rw [br_push_dispatch_newest r b h2, br_push_newest_snd] at h
    cases h
  by_cases h3 : r.bit_flags &&& BR_BEHAVIOR_FLAGS_MASK = BR_OVERWRITE_REFUSAL
  · exact ⟨h3, br_push_dispatch_refuse r b h3⟩
  · exfalso
    unfold br_push br_get_flags at h
    rw [if_neg h1, if_neg h2, if_neg h3] at h
    cases h

/-! Preservation of the immutable flag bits by every operation. -/

lemma imm_or_1024 (x : Nat) :
    (x ||| BR_FLAG_RING_FULL) &&& BR_IMMUTABLE_FLAGS_MASK = x &&& BR_IMMUTABLE_FLAGS_MASK :=
  and_mask_or _ _ _ (by decide)

lemma imm_or_512 (x : Nat) :
    (x ||| BR_FLAG_RING_EMPTY) &&& BR_IMMUTABLE_FLAGS_MASK = x &&& BR_IMMUTABLE_FLAGS_MASK :=
  and_mask_or _ _ _ (by decide)

lemma imm_or_256 (x : Nat) :
    (x ||| BR_FLAG_LINE_WRAPPED) &&& BR_IMMUTABLE_FLAGS_MASK = x &&& BR_IMMUTABLE_FLAGS_MASK :=
  and_mask_or _ _ _ (by decide)

lemma imm_or_128 (x : Nat) :
    (x ||| BR_FLAG_DATA_READY) &&& BR_IMMUTABLE_FLAGS_MASK = x &&& BR_IMMUTABLE_FLAGS_MASK :=
  and_mask_or _ _ _ (by decide)

lemma imm_or_64 (x : Nat) :
    (x ||| BR_FLAG_OVERWRITE) &&& BR_IMMUTABLE_FLAGS_MASK = x &&& BR_IMMUTABLE_FLAGS_MASK :=
  and_mask_or _ _ _ (by decide)

lemma event_masked_imm (e : Nat) : (e &&& BR_EVENT_FLAGS_MASK) &&& BR_IMMUTABLE_FLAGS_MASK = 0 := by
  rw [Nat.and_assoc]
  have h : BR_EVENT_FLAGS_MASK &&& BR_IMMUTABLE_FLAGS_MASK = 0 := by decide
  rw [h, Nat.and_zero]

lemma imm_set_flag (r : byte_ring) (e : Nat) :
    br_immutable_bits (br_set_flag r e) = br_immutable_bits r := by
  simp only [br_immutable_bits, br_set_flag, br_add_flags, br_set_flags, br_get_flags]
  rw [← Nat.or_assoc, Nat.or_self]
  exact and_mask_or _ _ _ (event_masked_imm e)

lemma imm_clear_flag (r : byte_ring) (e : Nat) :
    br_immutable_bits (br_clear_flag r e) = br_immutable_bits r := by
  unfold br_immutable_bits br_clear_flag br_clear_flag_masked br_set_flags br_get_flags
  rw [imm_mask_val]
  exact and_clear_mask _ _ (by rw [← imm_mask_val]; exact event_masked_imm e)

lemma imm_clear (r : byte_ring) :
    br_immutable_bits (br_clear r) = br_immutable_bits r := by
  rw [br_clear_eq]
  unfold br_immutable_bits
  rw [Nat.and_assoc]
  norm_num

lemma imm_seek (r : byte_ring) :
    br_immutable_bits (br_seek r).1 = br_immutable_bits r := by
  by_cases hcl : br_get_next_line r r.read = r.write
  · rw [br_seek_fail r hcl]
    unfold br_immutable_bits
    simp [br_add_flags_eq, br_reset_read_head_eq, imm_or_512]
  · rw [br_seek_ok r hcl]
    rfl

lemma imm_pop (r : byte_ring) (f : List Nat → Nat → Int) :
    br_immutable_bits (br_pop r f).1 = br_immutable_bits r := by
  unfold br_pop
  simp only [br_get_size_eq]
  split_ifs <;> simp [imm_seek]

lemma imm_push_oldest (r : byte_ring) (b : Nat) :
    br_immutable_bits (br_push_overwrite_oldest r b).1 = br_immutable_bits r := by
  unfold br_push_overwrite_oldest br_write_will_point_to_read br_write_line_is_full
    br_head1_will_point_to_head2 br_immutable_bits
  by_cases hc : br_get_next_line r r.write = r.read <;>
    rw [br_get_next_line_eq] at hc <;>
    by_cases hf : r.line_length ≤ r.size_map r.write <;>
    simp [hc, hf, br_get_size_eq, br_add_flags_eq, br_move_read_line_forward_eq,
      br_move_write_line_forward_eq, br_write_byte_eq, br_get_next_line_eq,
      imm_or_1024, imm_or_256, imm_or_64]

lemma imm_push_newest (r : byte_ring) (b : Nat) :
    br_immutable_bits (br_push_overwrite_newest r b).1 = br_immutable_bits r := by
  unfold br_push_overwrite_newest br_write_will_point_to_read br_write_line_is_full
    br_head1_will_point_to_head2 br_immutable_bits
  by_cases hc : br_get_next_line r r.write = r.read <;>
    rw [br_get_next_line_eq] at hc <;>
    by_cases hf : r.line_length ≤ r.size_map r.write <;>
    simp [hc, hf, br_get_size_eq, br_add_flags_eq, br_reset_write_head_eq,
      br_move_write_line_forward_eq, br_write_byte_eq, br_get_next_line_eq,
      imm_or_1024, imm_or_256, imm_or_64]

lemma imm_push_refuse (r : byte_ring) (b : Nat) :
    br_immutable_bits (br_push_refuse_overwrite r b).1 = br_immutable_bits r := by
  unfold br_push_refuse_overwrite br_write_will_point_to_read br_write_line_is_full
    br_head1_will_point_to_head2 br_immutable_bits
  by_cases hc : br_get_next_line r r.write = r.read <;>
    rw [br_get_next_line_eq] at hc <;>
    by_cases hf : r.line_length ≤ r.size_map r.write <;>
    simp [hc, hf, br_get_size_eq, br_add_flags_eq,
      br_move_write_line_forward_eq, br_write_byte_eq, br_get_next_line_eq,
      imm_or_1024, imm_or_256]

lemma imm_push (r : byte_ring) (b : Nat) :
    br_immutable_bits (br_push r b).1 = br_immutable_bits r := by
  unfold br_push br_get_flags
  split_ifs <;> simp [imm_push_oldest, imm_push_newest, imm_push_refuse]

lemma imm_advance (r : byte_ring) :
    br_immutable_bits (br_advance_write_head r).1 = br_immutable_bits r := by
  unfold br_advance_write_head br_write_will_point_to_read br_write_line_is_full
    br_head1_will_point_to_head2 br_get_flags br_immutable_bits
  by_cases hc : br_get_next_line r r.write = r.read <;>
    rw [br_get_next_line_eq] at hc <;>
    by_cases hf : r.line_length ≤ r.size_map r.write <;>
    simp [hc, hf, br_get_size_eq, br_add_flags_eq, br_move_read_line_forward_eq,
      br_move_write_line_forward_eq, br_reset_write_head_eq, br_get_next_line_eq,
      imm_or_1024, imm_or_256, imm_or_128, imm_or_64]
  all_goals split_ifs <;>
    simp [imm_or_1024, imm_or_256, imm_or_128, imm_or_64]

lemma br_get_final_line_eq (r : byte_ring) :
    br_get_final_line r = r.backing_store_size - r.line_length := by
  simp [br_get_final_line, br_get_first_line, br_get_backing_store_size]

lemma imm_and_imm (x : Nat) :
    (x &&& BR_IMMUTABLE_FLAGS_MASK) &&& BR_IMMUTABLE_FLAGS_MASK =
      x &&& BR_IMMUTABLE_FLAGS_MASK := by
  rw [Nat.and_assoc]
  rfl

/-! Claim theorems. -/

/-- C1: the claim says the write head and read head never share a line
after any public operation on a ring of at least two lines.  The code
breaks it: on a fresh two-line refuse ring (write on line 0, read on
line 1, line 0 not full), br_advance_write_head sees collision without
fullness, takes the unconditional move path, parks the write head on the
read head's line and reports success — the very state br_check_truths
asserts against. -/
theorem claim_C1 :
    (br_advance_write_head ringR21).2 = true ∧
    (br_advance_write_head ringR21).1.write = (br_advance_write_head ringR21).1.read := by
  decide

/-- C2 as frozen is false: br_seek can fail and still mutate the ledger.
In the reachable boundary state the read line holds one valid byte;
br_seek resets that ledger entry to 0 before discovering the collision
and failing. -/
theorem claim_C2_counterexample :
    (br_seek ringBoundary).2 = false ∧
    ringBoundary.size_map ringBoundary.read = 1 ∧
    (br_seek ringBoundary).1.size_map ringBoundary.read = 0 := by
  decide

/-- C2 amended: a failing br_push or br_advance_write_head leaves the
backing store, the ledger and both heads untouched (only advisory event
flags move); a failing br_seek leaves the store and both heads untouched
but always resets the current read line's ledger entry to 0 first. -/
theorem claim_C2 (r : byte_ring) (b : Nat) :
    ((br_push r b).2 = false →
      (br_push r b).1.backing_store = r.backing_store ∧
      (br_push r b).1.size_map = r.size_map ∧
      (br_push r b).1.write = r.write ∧ (br_push r b).1.read = r.read) ∧
    ((br_advance_write_head r).2 = false →
      (br_advance_write_head r).1.backing_store = r.backing_store ∧
      (br_advance_write_head r).1.size_map = r.size_map ∧
      (br_advance_write_head r).1.write = r.write ∧
      (br_advance_write_head r).1.read = r.read) ∧
    ((br_seek r).2 = false →
      (br_seek r).1.backing_store = r.backing_store ∧
      (br_seek r).1.write = r.write ∧ (br_seek r).1.read = r.read ∧
      (br_seek r).1.size_map = fun i => if i = r.read then 0 else r.size_map i) := by
  refine ⟨?_, ?_, ?_⟩
  · intro h
    obtain ⟨hb, heq⟩ := br_push_snd_false r b h
    rw [heq] at h ⊢
    by_cases hc : br_get_next_line r r.write = r.read
    · by_cases hfull : r.line_length ≤ r.size_map r.write
      · rw [br_push_refuse_fail_eq r b hc hfull]
        simp [br_add_flags_eq]
      · rw [br_push_refuse_snd_true r b (fun hh => hfull hh.1)] at h
        simp at h
    · rw [br_push_refuse_snd_true r b (fun hh => hc hh.2)] at h
      simp at h
  · intro h
    by_cases hc : br_get_next_line r r.write = r.read
    · by_cases hfull : r.line_length ≤ r.size_map r.write
      · by_cases hb1 : r.bit_flags &&& BR_BEHAVIOR_FLAGS_MASK = BR_OVERWRITE_OLDEST
        · rw [br_advance_snd_overwrite_oldest r hc hfull hb1] at h
          simp at h
        by_cases hb2 : r.bit_flags &&& BR_BEHAVIOR_FLAGS_MASK = BR_OVERWRITE_NEWEST
        · rw [br_advance_snd_overwrite_newest r hc hfull hb2] at h
          simp at h
        · rw [br_advance_fail r hc hfull hb1 hb2]
          simp [br_add_flags_eq]
      · obtain ⟨fl, heq, hfl⟩ := br_advance_no_collision r (fun hh => hfull hh.2)
        rw [heq] at h
        simp at h
    · obtain ⟨fl, heq, hfl⟩ := br_advance_no_collision r (fun hh => hc hh.1)
      rw [heq] at h
      simp at h
  · intro h
    by_cases hc : br_get_next_line r r.read = r.write
    · rw [br_seek_fail r hc]
      simp [br_add_flags_eq, br_reset_read_head_eq]
    · rw [br_seek_ok r hc] at h
      simp at h

/-- C2 witness: the amended seek clause applied to the reachable boundary
state, where br_seek does fail. -/
theorem claim_C2_witness :
    (br_seek ringBoundary).1.backing_store = ringBoundary.backing_store ∧
    (br_seek ringBoundary).1.write = ringBoundary.write ∧
    (br_seek ringBoundary).1.read = ringBoundary.read ∧
    (br_seek ringBoundary).1.size_map =
      fun i => if i = ringBoundary.read then 0 else ringBoundary.size_map i :=
  (claim_C2 ringBoundary 0).2.2 (by decide)

/-- C3 as frozen is false: on an overwrite-newest ring whose read head
is one line before the write head, br_seek reports failure and moves
neither head, instead of advancing the write head past its in-progress
line and then the read head. -/
theorem claim_C3_counterexample :
    ringN21.bit_flags &&& BR_BEHAVIOR_FLAGS_MASK = BR_OVERWRITE_NEWEST ∧
    br_get_next_line ringN21 ringN21.read = ringN21.write ∧
    (br_seek ringN21).2 = false ∧
    (br_seek ringN21).1.write = ringN21.write ∧
    (br_seek ringN21).1.read = ringN21.read := by
  decide

/-- C3 amended: br_seek never consults the admission policy.  Under
overwrite-newest, in a state where the line after the read head is the
write head's line, it resets the read ledger entry, records the
ring-empty flag, fails, and leaves both heads in place. -/
theorem claim_C3 (r : byte_ring)
    (hb : r.bit_flags &&& BR_BEHAVIOR_FLAGS_MASK = BR_OVERWRITE_NEWEST)
    (h : br_get_next_line r r.read = r.write) :
    br_seek r = (br_add_flags (br_reset_read_head r) BR_FLAG_RING_EMPTY, false) ∧
    (br_seek r).1.write = r.write ∧ (br_seek r).1.read = r.read := by
  refine ⟨br_seek_fail r h, ?_, ?_⟩ <;>
    rw [br_seek_fail r h] <;>
    simp [br_add_flags_eq, br_reset_read_head_eq]

/-- C3 witness: the amended statement evaluated on the concrete fresh
overwrite-newest ring, whose clear state already sits at the boundary. -/
theorem claim_C3_witness :
    br_seek ringN21 = (br_add_flags (br_reset_read_head ringN21) BR_FLAG_RING_EMPTY, false) ∧
    (br_seek ringN21).1.write = ringN21.write ∧
    (br_seek ringN21).1.read = ringN21.read :=
  claim_C3 ringN21 (by decide) (by decide)

/-- C4 as frozen is false: in the reachable boundary state the callback
answers READY and br_pop copies the line and returns its size, but the
read head does not advance to the next line, because the inner br_seek
hits the would-become-empty collision. -/
theorem claim_C4_counterexample :
    br_is_ready ringBoundary alwaysReady = 1 ∧
    (br_pop ringBoundary alwaysReady).2.1 = 1 ∧
    (br_pop ringBoundary alwaysReady).2.2 = [7] ∧
    (br_pop ringBoundary alwaysReady).1.read = ringBoundary.read ∧
    ¬br_get_next_line ringBoundary ringBoundary.read = ringBoundary.read := by
  decide

/-- C4 amended: when the callback answers READY, br_pop copies the
ledger-many bytes of the read line into the destination and returns that
count, resets the read line's ledger entry, and advances the read head
to the next line unless that next line is the write head's line, in
which case the read head stays where it was. -/
theorem claim_C4 (r : byte_ring) (f : List Nat → Nat → Int)
    (hf : br_is_ready r f = 1) :
    br_pop r f = ((br_seek r).1, (r.size_map r.read : Int),
      (List.range (r.size_map r.read)).map (fun i => r.backing_store (r.read + i))) ∧
    (br_seek r).1.read =
      (if br_get_next_line r r.read = r.write then r.read else br_get_next_line r r.read) ∧
    (br_seek r).1.size_map r.read = 0 := by
  have hf2 : f (br_line_bytes r r.read) (r.size_map r.read) = 1 := by
    unfold br_is_ready at hf
    rwa [br_get_size_eq] at hf
  refine ⟨br_pop_ready r f hf2, ?_, ?_⟩ <;>
    by_cases hc : br_get_next_line r r.read = r.write
  · rw [br_seek_fail r hc, if_pos hc]
    simp [br_add_flags_eq, br_reset_read_head_eq]
  · rw [br_seek_ok r hc, if_neg hc]
  · rw [br_seek_fail r hc]
    simp [br_add_flags_eq, br_reset_read_head_eq]
  · rw [br_seek_ok r hc]
    simp

/-- C4 witness: the amended statement evaluated on the boundary state. -/
theorem claim_C4_witness :
    br_pop ringBoundary alwaysReady = ((br_seek ringBoundary).1,
      (ringBoundary.size_map ringBoundary.read : Int),
      (List.range (ringBoundary.size_map ringBoundary.read)).map
        (fun i => ringBoundary.backing_store (ringBoundary.read + i))) ∧
    (br_seek ringBoundary).1.read =
      (if br_get_next_line ringBoundary ringBoundary.read = ringBoundary.write then
        ringBoundary.read else br_get_next_line ringBoundary ringBoundary.read) ∧
    (br_seek ringBoundary).1.size_map ringBoundary.read = 0 :=
  claim_C4 ringBoundary alwaysReady (by decide)

/-- C6: br_push fails exactly under the refuse policy with the write
line at capacity and the next line being the read head's line; under
drop-oldest and overwrite-newest it always succeeds; and a failing push
leaves the backing store and the ledger byte-for-byte unchanged. -/
theorem claim_C6 (r : byte_ring) (b : Nat) :
    (r.bit_flags &&& BR_BEHAVIOR_FLAGS_MASK = BR_OVERWRITE_REFUSAL →
      ((br_push r b).2 = false ↔
        r.line_length ≤ br_get_size r r.write ∧ br_get_next_line r r.write = r.read)) ∧
    ((r.bit_flags &&& BR_BEHAVIOR_FLAGS_MASK = BR_OVERWRITE_OLDEST ∨
      r.bit_flags &&& BR_BEHAVIOR_FLAGS_MASK = BR_OVERWRITE_NEWEST) →
      (br_push r b).2 = true) ∧
    ((br_push r b).2 = false →
      (br_push r b).1.backing_store = r.backing_store ∧
      (br_push r b).1.size_map = r.size_map) := by
  refine ⟨?_, ?_, ?_⟩
  · intro hb
    rw [br_push_dispatch_refuse r b hb, br_get_size_eq]
    exact br_push_refuse_snd_false_iff r b
  · rintro (hb | hb)
    · rw [br_push_dispatch_oldest r b hb, br_push_oldest_snd]
    · rw [br_push_dispatch_newest r b hb, br_push_newest_snd]
  · intro h
    obtain ⟨hb, heq⟩ := br_push_snd_false r b h
    rw [heq] at h ⊢
    have hcond := (br_push_refuse_snd_false_iff r b).mp h
    rw [br_push_refuse_fail_eq r b hcond.2 hcond.1]
    simp [br_add_flags_eq]

/-- C6 witness: a refuse ring at capacity with collision refuses the
push and keeps store and ledger; the same geometry under drop-oldest
accepts it. -/
theorem claim_C6_witness :
    ((br_push ringFullRefuse 5).2 = false ↔
      ringFullRefuse.line_length ≤ br_get_size ringFullRefuse ringFullRefuse.write ∧
      br_get_next_line ringFullRefuse ringFullRefuse.write = ringFullRefuse.read) ∧
    (br_push ringFullOldest 5).2 = true ∧
    (br_push ringFullRefuse 5).1.size_map = ringFullRefuse.size_map :=
  ⟨(claim_C6 ringFullRefuse 5).1 (by decide),
   (claim_C6 ringFullOldest 5).2.1 (Or.inl (by decide)),
   ((claim_C6 ringFullRefuse 5).2.2 (by decide)).2⟩

/-- C7: the claim says every ledger entry stays between 0 and the line
length from construction on.  The code breaks it: br_get_line_index
returns a byte offset (it never divides by the line length), so line k's
ledger entry lives at size-map word k*L, while the constructors allocate
only N words and br_clear's memset zeroes only words below N.  On a
3-line, 4-byte ring the word the code reads as line 1's ledger entry is
untouched malloc memory; here it still holds 5 > 4 right after
construction, before any operation. -/
theorem claim_C7 :
    br_get_size ringStaleLedger (br_get_specific_line ringStaleLedger 1) = 5 ∧
    ringStaleLedger.line_length = 4 ∧ ringStaleLedger.number_lines = 3 := by
  decide

/-- C8: br_set_flag and br_clear_flag mask their argument with
BR_EVENT_FLAGS_MASK, so the admission-policy and allocation bits of the
flag register survive any flag argument; and no public operation after
construction changes those bits. -/
theorem claim_C8 (r : byte_ring) (e b : Nat) (f : List Nat → Nat → Int) :
    br_immutable_bits (br_set_flag r e) = br_immutable_bits r ∧
    br_immutable_bits (br_clear_flag r e) = br_immutable_bits r ∧
    br_immutable_bits (br_push r b).1 = br_immutable_bits r ∧
    br_immutable_bits (br_advance_write_head r).1 = br_immutable_bits r ∧
    br_immutable_bits (br_seek r).1 = br_immutable_bits r ∧
    br_immutable_bits (br_pop r f).1 = br_immutable_bits r ∧
    br_immutable_bits (br_clear r) = br_immutable_bits r :=
  ⟨imm_set_flag r e, imm_clear_flag r e, imm_push r b, imm_advance r, imm_seek r,
    imm_pop r f, imm_clear r⟩

/-- C9: br_clear writes only constants and positions derived from the
immutable geometry, so applying it twice produces exactly the state of
applying it once. -/
theorem claim_C9 (r : byte_ring) : br_clear (br_clear r) = br_clear r := by
  simp only [br_clear_eq, br_get_final_line_eq]
  refine byte_ring.ext ?_ rfl rfl ?_ rfl ?_ rfl rfl
  · exact imm_and_imm r.bit_flags
  · funext i
    by_cases hi : i < r.backing_store_size <;> simp [hi]
  · funext i
    by_cases h0 : i = 0 <;>
      by_cases hfin : i = r.backing_store_size - r.line_length <;>
      by_cases hN : i < r.number_lines <;>
      simp [h0, hfin, hN]

/-- C10: when the callback answer is outside the BR_READY_FOR_POP range,
br_pop falls through every branch, returns 0 and leaves the ring
untouched. -/
theorem claim_C10 (r : byte_ring) (f : List Nat → Nat → Int)
    (h0 : ¬br_is_ready r f = 0) (h1 : ¬br_is_ready r f = -1) (h2 : ¬br_is_ready r f = 1) :
    br_pop r f = (r, 0, []) := by
  unfold br_is_ready at h0 h1 h2
  rw [br_get_size_eq] at h0 h1 h2
  exact br_pop_out_of_range r f h0 h1 h2

/-- C10 witness: a callback answering 2 on the boundary state. -/
theorem claim_C10_witness :
    ¬br_is_ready ringBoundary alwaysTwo = 0 ∧
    br_pop ringBoundary alwaysTwo = (ringBoundary, 0, []) :=
  ⟨by decide, claim_C10 ringBoundary alwaysTwo (by decide) (by decide) (by decide)⟩

/-- C5 as frozen is false: after clear the read head sits on the last,
empty line, so the single br_pop of the round trip copies zero bytes and
returns 0, not the length of the pushed sequence.  Concretely: a fresh
3-line, 1-byte refuse ring, push the byte 7, finalize, pop with an
always-READY callback. -/
theorem claim_C5_counterexample :
    (br_pop (br_advance_write_head (br_push_list ringR31 [7])).1 alwaysReady).2.1 = 0 ∧
    (br_pop (br_advance_write_head (br_push_list ringR31 [7])).1 alwaysReady).2.2 = [] ∧
    ([7] : List Nat).length = 1 := by
  decide

/-! Infrastructure for the round-trip claim. -/

lemma br_push_list_cons (r : byte_ring) (b : Nat) (t : List Nat) :
    br_push_list r (b :: t) = br_push_list (br_push r b).1 t := rfl

lemma map_range_eq_list (s : List Nat) (g : Nat → Nat)
    (h : ∀ j, j < s.length → g j = s.getD j 0) :
    (List.range s.length).map g = s := by
  apply List.ext_getElem
  · simp
  · intro n h1 h2
    simp only [List.getElem_map, List.getElem_range]
    rw [h n (by simpa using h1), List.getD_eq_getElem]

/-- Field-level description of a successful append-path push. -/
lemma br_push_not_full_fields (st : byte_ring) (b : Nat)
    (hp : st.bit_flags &&& BR_BEHAVIOR_FLAGS_MASK = BR_OVERWRITE_OLDEST ∨
          st.bit_flags &&& BR_BEHAVIOR_FLAGS_MASK = BR_OVERWRITE_NEWEST ∨
          st.bit_flags &&& BR_BEHAVIOR_FLAGS_MASK = BR_OVERWRITE_REFUSAL)
    (hfull : st.size_map st.write < st.line_length) :
    (br_push st b).2 = true ∧
    (br_push st b).1.number_lines = st.number_lines ∧
    (br_push st b).1.line_length = st.line_length ∧
    (br_push st b).1.backing_store_size = st.backing_store_size ∧
    (br_push st b).1.write = st.write ∧
    (br_push st b).1.read = st.read ∧
    (br_push st b).1.bit_flags &&& BR_BEHAVIOR_FLAGS_MASK =
      st.bit_flags &&& BR_BEHAVIOR_FLAGS_MASK ∧
    (br_push st b).1.size_map st.write = st.size_map st.write + 1 ∧
    (∀ i, ¬i = st.write → (br_push st b).1.size_map i = st.size_map i) ∧
    (br_push st b).1.backing_store (st.write + st.size_map st.write) = b % 256 ∧
    (∀ i, ¬i = st.write + st.size_map st.write →
      (br_push st b).1.backing_store i = st.backing_store i) := by
  obtain ⟨fl, heq, hfl⟩ := br_push_not_full st b hp hfull
  rw [heq]
  refine ⟨rfl, rfl, rfl, rfl, rfl, rfl, hfl, ?_, ?_, ?_, ?_⟩
  · simp [br_write_byte_eq]
  · intro i hi
    simp [br_write_byte_eq, hi]
  · simp [br_write_byte_eq]
  · intro i hi
    simp [br_write_byte_eq, hi]

/-- Running the push loop over a byte sequence that fits on the current
write line: the bytes land in order on that line, the ledger entry grows
by the length, and nothing else observable moves. -/
lemma br_push_list_run : ∀ (s : List Nat) (st : byte_ring),
    (st.bit_flags &&& BR_BEHAVIOR_FLAGS_MASK = BR_OVERWRITE_OLDEST ∨
     st.bit_flags &&& BR_BEHAVIOR_FLAGS_MASK = BR_OVERWRITE_NEWEST ∨
     st.bit_flags &&& BR_BEHAVIOR_FLAGS_MASK = BR_OVERWRITE_REFUSAL) →
    st.size_map st.write + s.length ≤ st.line_length →
    (br_push_list st s).number_lines = st.number_lines ∧
    (br_push_list st s).line_length = st.line_length ∧
    (br_push_list st s).backing_store_size = st.backing_store_size ∧
    (br_push_list st s).write = st.write ∧
    (br_push_list st s).read = st.read ∧
    (br_push_list st s).bit_flags &&& BR_BEHAVIOR_FLAGS_MASK =
      st.bit_flags &&& BR_BEHAVIOR_FLAGS_MASK ∧
    (br_push_list st s).size_map st.write = st.size_map st.write + s.length ∧
    (∀ i, ¬i = st.write → (br_push_list st s).size_map i = st.size_map i) ∧
    (∀ j, j < s.length →
      (br_push_list st s).backing_store (st.write + st.size_map st.write + j) =
        s.getD j 0 % 256) ∧
    (∀ i, i < st.write + st.size_map st.write ∨
          st.write + st.size_map st.write + s.length ≤ i →
      (br_push_list st s).backing_store i = st.backing_store i) := by
  intro s
  induction s with
  | nil =>
    intro st hp hroom
    refine ⟨rfl, rfl, rfl, rfl, rfl, rfl, by simp [br_push_list], fun i _ => rfl,
      ?_, fun i _ => rfl⟩
    intro j hj
    simp at hj
  | cons b t ih =>
    intro st hp hroom
    simp only [List.length_cons] at hroom
    have hfull : st.size_map st.write < st.line_length := by omega
    obtain ⟨hsnd, hN, hL, hbss, hw, hr, hbeh, hsm_at, hsm_off, hbs_at, hbs_off⟩ :=
      br_push_not_full_fields st b hp hfull
    rw [br_push_list_cons]
    have hp1 : (br_push st b).1.bit_flags &&& BR_BEHAVIOR_FLAGS_MASK = BR_OVERWRITE_OLDEST ∨
        (br_push st b).1.bit_flags &&& BR_BEHAVIOR_FLAGS_MASK = BR_OVERWRITE_NEWEST ∨
        (br_push st b).1.bit_flags &&& BR_BEHAVIOR_FLAGS_MASK = BR_OVERWRITE_REFUSAL := by
      rw [hbeh]
      exact hp
    have hroom1 : (br_push st b).1.size_map (br_push st b).1.write + t.length ≤
        (br_push st b).1.line_length := by
      rw [hw, hsm_at, hL]
      omega
    obtain ⟨k1, k2, k3, k4, k5, k6, k7, k8, k9, k10⟩ := ih (br_push st b).1 hp1 hroom1
    rw [hw] at k4 k7 k8 k9 k10
    rw [hsm_at] at k7 k9 k10
    refine ⟨?_, ?_, ?_, ?_, ?_, ?_, ?_, ?_, ?_, ?_⟩
    · rw [k1, hN]
    · rw [k2, hL]
    · rw [k3, hbss]
    · rw [k4]
    · rw [k5, hr]
    · rw [k6, hbeh]
    · rw [k7, List.length_cons]
      omega
    · intro i hi
      rw [k8 i hi, hsm_off i hi]
    · intro j hj
      cases j with
      | zero =>
        have heq0 : st.write + st.size_map st.write + 0 = st.write + st.size_map st.write := by
          omega
        rw [heq0, k10 (st.write + st.size_map st.write) (Or.inl (by omega)), hbs_at]
        simp
      | succ j =>
        have hj2 : j < t.length := by
          simp only [List.length_cons] at hj
          omega
        have heqpos : st.write + st.size_map st.write + (j + 1) =
            st.write + (st.size_map st.write + 1) + j := by
          omega
        rw [heqpos, k9 j hj2]
        simp
    · intro i hi
      simp only [List.length_cons] at hi
      have hout : i < st.write + (st.size_map st.write + 1) ∨
          st.write + (st.size_map st.write + 1) + t.length ≤ i := by
        omega
      rw [k10 i hout, hbs_off i (by omega)]

/-- C5 amended: on a freshly cleared ring the read head sits on the last
line, which is empty, so the first br_pop with an always-READY callback
returns 0; provided the ring has at least three lines or the sequence is
strictly shorter than a line, the finalize succeeds and a second br_pop
returns the length of the pushed sequence and copies exactly its bytes,
in order, into the destination. -/
theorem claim_C5 (r : byte_ring) (s : List Nat)
    (hN : 2 ≤ r.number_lines) (hL : 1 ≤ r.line_length)
    (hsz : r.backing_store_size = r.number_lines * r.line_length)
    (hp : r.bit_flags &&& BR_BEHAVIOR_FLAGS_MASK = BR_OVERWRITE_OLDEST ∨
          r.bit_flags &&& BR_BEHAVIOR_FLAGS_MASK = BR_OVERWRITE_NEWEST ∨
          r.bit_flags &&& BR_BEHAVIOR_FLAGS_MASK = BR_OVERWRITE_REFUSAL)
    (hlen : s.length ≤ r.line_length)
    (hbytes : ∀ b ∈ s, b < 256)
    (hside : 3 ≤ r.number_lines ∨ s.length < r.line_length)
    (f : List Nat → Nat → Int) (hf : ∀ a n, f a n = 1) :
    (br_advance_write_head (br_push_list (br_clear r) s)).2 = true ∧
    (br_pop (br_advance_write_head (br_push_list (br_clear r) s)).1 f).2.1 = 0 ∧
    (br_pop (br_pop (br_advance_write_head (br_push_list (br_clear r) s)).1 f).1 f).2.1 =
      (s.length : Int) ∧
    (br_pop (br_pop (br_advance_write_head (br_push_list (br_clear r) s)).1 f).1 f).2.2 = s := by
  have h2L : 2 * r.line_length ≤ r.backing_store_size := by
    rw [hsz]
    exact Nat.mul_le_mul_right _ hN
  have h3L : 3 ≤ r.number_lines → 3 * r.line_length ≤ r.backing_store_size := by
    intro h3
    rw [hsz]
    exact Nat.mul_le_mul_right _ h3
  have hfinpos : 1 ≤ r.backing_store_size - r.line_length := by omega
  have hfinne0 : ¬r.backing_store_size - r.line_length = 0 := by omega
  have e0w : (br_clear r).write = 0 := by rw [br_clear_eq]
  have e0r : (br_clear r).read = r.backing_store_size - r.line_length := by
    rw [br_clear_eq]
    simp [br_get_final_line_eq]
  have e0N : (br_clear r).number_lines = r.number_lines := rfl
  have e0L : (br_clear r).line_length = r.line_length := rfl
  have e0bss : (br_clear r).backing_store_size = r.backing_store_size := rfl
  have e0sm0 : (br_clear r).size_map 0 = 0 := by
    rw [br_clear_eq]
    simp
  have e0smfin : (br_clear r).size_map (r.backing_store_size - r.line_length) = 0 := by
    rw [br_clear_eq]
    simp [br_get_final_line_eq, hfinne0]
  have e0beh : (br_clear r).bit_flags &&& BR_BEHAVIOR_FLAGS_MASK =
      r.bit_flags &&& BR_BEHAVIOR_FLAGS_MASK := by
    rw [br_clear_eq]
    show (r.bit_flags &&& BR_IMMUTABLE_FLAGS_MASK) &&& BR_BEHAVIOR_FLAGS_MASK =
      r.bit_flags &&& BR_BEHAVIOR_FLAGS_MASK
    rw [imm_mask_val, behavior_mask_val]
    exact and63_and7 r.bit_flags
  have hp0 : (br_clear r).bit_flags &&& BR_BEHAVIOR_FLAGS_MASK = BR_OVERWRITE_OLDEST ∨
      (br_clear r).bit_flags &&& BR_BEHAVIOR_FLAGS_MASK = BR_OVERWRITE_NEWEST ∨
      (br_clear r).bit_flags &&& BR_BEHAVIOR_FLAGS_MASK = BR_OVERWRITE_REFUSAL := by
    rw [e0beh]
    exact hp
  have hroom0 : (br_clear r).size_map (br_clear r).write + s.length ≤
      (br_clear r).line_length := by
    rw [e0w, e0sm0, e0L]
    omega
  obtain ⟨k1, k2, k3, k4, k5, k6, k7, k8, k9, k10⟩ :=
    br_push_list_run s (br_clear r) hp0 hroom0
  rw [e0w] at k4 k7 k8 k9 k10
  rw [e0sm0] at k7 k9 k10
  rw [e0r] at k5
  rw [e0N] at k1
  rw [e0L] at k2
  rw [e0bss] at k3
  simp only [Nat.zero_add, Nat.add_zero] at k7 k9 k10
  have hnoov : ¬(br_get_next_line (br_push_list (br_clear r) s)
        (br_push_list (br_clear r) s).write = (br_push_list (br_clear r) s).read ∧
      (br_push_list (br_clear r) s).line_length ≤
        (br_push_list (br_clear r) s).size_map (br_push_list (br_clear r) s).write) := by
    rw [br_get_next_line_eq, k4, k2, k3, k5, k7]
    rintro ⟨hcol, hful⟩
    rw [if_neg hfinne0, Nat.zero_add] at hcol
    rcases hside with h3 | hsl
    · have := h3L h3
      omega
    · omega
  obtain ⟨fl2, heq2, hfl2⟩ := br_advance_no_collision (br_push_list (br_clear r) s) hnoov
  have hnext1 : br_get_next_line (br_push_list (br_clear r) s)
      (br_push_list (br_clear r) s).write = r.line_length := by
    rw [br_get_next_line_eq, k4, k2, k3, if_neg hfinne0, Nat.zero_add]
  have e2w : (br_advance_write_head (br_push_list (br_clear r) s)).1.write =
      r.line_length := by
    rw [heq2]
    show (br_move_write_line_forward (br_push_list (br_clear r) s)).write = r.line_length
    rw [br_move_write_line_forward_eq]
    exact hnext1
  have e2r : (br_advance_write_head (br_push_list (br_clear r) s)).1.read =
      r.backing_store_size - r.line_length := by
    rw [heq2]
    show (br_move_write_line_forward (br_push_list (br_clear r) s)).read = _
    rw [br_move_write_line_forward_eq]
    exact k5
  have e2L : (br_advance_write_head (br_push_list (br_clear r) s)).1.line_length =
      r.line_length := by
    rw [heq2]
    show (br_move_write_line_forward (br_push_list (br_clear r) s)).line_length = _
    rw [br_move_write_line_forward_eq]
    exact k2
  have e2bss : (br_advance_write_head (br_push_list (br_clear r) s)).1.backing_store_size =
      r.backing_store_size := by
    rw [heq2]
    show (br_move_write_line_forward (br_push_list (br_clear r) s)).backing_store_size = _
    rw [br_move_write_line_forward_eq]
    exact k3
  have e2smfin : (br_advance_write_head (br_push_list (br_clear r) s)).1.size_map
      (r.backing_store_size - r.line_length) = 0 := by
    rw [heq2]
    show (br_move_write_line_forward (br_push_list (br_clear r) s)).size_map
      (r.backing_store_size - r.line_length) = 0
    simp only [br_move_write_line_forward_eq, hnext1]
    by_cases hc2 : r.backing_store_size - r.line_length = r.line_length
    · rw [if_pos hc2]
    · rw [if_neg hc2, k4, if_neg hfinne0, k8 _ hfinne0, e0smfin]
  have e2sm0 : (br_advance_write_head (br_push_list (br_clear r) s)).1.size_map 0 =
      s.length := by
    rw [heq2]
    show (br_move_write_line_forward (br_push_list (br_clear r) s)).size_map 0 = s.length
    simp only [br_move_write_line_forward_eq, hnext1]
    rw [if_neg (by omega : ¬(0 : Nat) = r.line_length), k4, if_pos rfl, k7]
  have e2store : (br_advance_write_head (br_push_list (br_clear r) s)).1.backing_store =
      (br_push_list (br_clear r) s).backing_store := by
    rw [heq2]
    show (br_move_write_line_forward (br_push_list (br_clear r) s)).backing_store = _
    rw [br_move_write_line_forward_eq]
  have hpop1 := br_pop_ready (br_advance_write_head (br_push_list (br_clear r) s)).1 f
    (hf _ _)
  have hc3 : ¬br_get_next_line (br_advance_write_head (br_push_list (br_clear r) s)).1
      (br_advance_write_head (br_push_list (br_clear r) s)).1.read =
      (br_advance_write_head (br_push_list (br_clear r) s)).1.write := by
    rw [br_get_next_line_eq, e2r, e2w, e2L, e2bss, if_pos rfl]
    omega
  have hseek2 := br_seek_ok (br_advance_write_head (br_push_list (br_clear r) s)).1 hc3
  have e3r : (br_seek (br_advance_write_head (br_push_list (br_clear r) s)).1).1.read =
      0 := by
    rw [hseek2]
    show br_get_next_line (br_advance_write_head (br_push_list (br_clear r) s)).1
      (br_advance_write_head (br_push_list (br_clear r) s)).1.read = 0
    rw [br_get_next_line_eq, e2r, e2L, e2bss, if_pos rfl]
  have e3sm0 : (br_seek (br_advance_write_head (br_push_list (br_clear r) s)).1).1.size_map
      0 = s.length := by
    rw [hseek2]
    show (if (0 : Nat) = (br_advance_write_head (br_push_list (br_clear r) s)).1.read then 0
      else (br_advance_write_head (br_push_list (br_clear r) s)).1.size_map 0) = s.length
    rw [e2r, if_neg (by omega), e2sm0]
  have e3store : (br_seek (br_advance_write_head (br_push_list (br_clear r) s)).1).1.backing_store =
      (br_advance_write_head (br_push_list (br_clear r) s)).1.backing_store := by
    rw [hseek2]
  have hpop2 := br_pop_ready
    (br_seek (br_advance_write_head (br_push_list (br_clear r) s)).1).1 f (hf _ _)
  refine ⟨by rw [heq2], ?_, ?_, ?_⟩
  · rw [hpop1]
    show ((br_advance_write_head (br_push_list (br_clear r) s)).1.size_map
      (br_advance_write_head (br_push_list (br_clear r) s)).1.read : Int) = 0
    rw [e2r, e2smfin]
    rfl
  · rw [hpop1, hpop2]
    show ((br_seek (br_advance_write_head (br_push_list (br_clear r) s)).1).1.size_map
      (br_seek (br_advance_write_head (br_push_list (br_clear r) s)).1).1.read : Int) =
      (s.length : Int)
    rw [e3r, e3sm0]
  · rw [hpop1, hpop2]
    show (List.range
        ((br_seek (br_advance_write_head (br_push_list (br_clear r) s)).1).1.size_map
          (br_seek (br_advance_write_head (br_push_list (br_clear r) s)).1).1.read)).map
        (fun i => (br_seek (br_advance_write_head (br_push_list (br_clear r) s)).1).1.backing_store
          ((br_seek (br_advance_write_head (br_push_list (br_clear r) s)).1).1.read + i)) = s
    rw [e3r, e3sm0]
    apply map_range_eq_list
    intro j hj
    show (br_seek (br_advance_write_head (br_push_list (br_clear r) s)).1).1.backing_store
      (0 + j) = s.getD j 0
    rw [Nat.zero_add, e3store, e2store, k9 j hj]
    have hjmem : s.getD j 0 ∈ s := by
      rw [List.getD_eq_getElem s 0 hj]
      exact List.getElem_mem hj
    exact Nat.mod_eq_of_lt (hbytes _ hjmem)

/-- C5 witness: three one-byte lines, refuse policy, the byte sequence
consisting of the single byte 7. -/
theorem claim_C5_witness :
    (br_advance_write_head (br_push_list (br_clear ringBase31) [7])).2 = true ∧
    (br_pop (br_advance_write_head (br_push_list (br_clear ringBase31) [7])).1
      alwaysReady).2.1 = 0 ∧
    (br_pop (br_pop (br_advance_write_head (br_push_list (br_clear ringBase31) [7])).1
      alwaysReady).1 alwaysReady).2.1 = (([7] : List Nat).length : Int) ∧
    (br_pop (br_pop (br_advance_write_head (br_push_list (br_clear ringBase31) [7])).1
      alwaysReady).1 alwaysReady).2.2 = [7] :=
  claim_C5 ringBase31 [7] (by decide) (by decide) (by decide)
    (Or.inr (Or.inr (by decide))) (by decide) (by decide) (Or.inl (by decide))
    alwaysReady (fun a n => rfl)

end ByteRing
